import Mathlib

/-!
Verification of the attempt-accounting and submission-aggregation logic of the
math-quiz application, embedded shallowly from the JavaScript source:

* `StudentView.jsx` — `getMaxAttempts`, `getAttemptInfo`, `buildFallbackEvaluations`,
  `submitQuiz`, `startQuiz`, `handleAnswerChange`, `attemptsByQuiz`;
* `firebaseService.js` — the `useStudentSubmissions` summary fold and the
  `useStudentAttempts` sort;
* `netlify/functions/gradeQuiz.js` — the grading proxy `handler` and its
  `truncate` helper.

JavaScript dynamic values relevant to the embedded code are modelled by `JSVal`
(numbers as rationals, a separate NaN constructor, strings, null, undefined).
JavaScript objects used as string-keyed maps are modelled by association lists
with `alookup` and `aset`. Timestamps (`attemptedAt` ISO strings) are modelled
by their epoch-millisecond value, since the code only consumes them through
`new Date(x || 0).getTime()`.
-/

namespace MathQuiz

/-- Model of the JavaScript dynamic values that flow through the embedded code. -/
inductive JSVal where
  | num (q : ℚ)
  | nan
  | str (s : String)
  | null
  | undef
deriving DecidableEq, Repr

/-- Digit-string value: folds decimal digits into a natural number. -/
def digitsToNat (cs : List Char) : Nat :=
  cs.foldl (fun n c => n * 10 + (c.toNat - 48)) 0

/-- All characters are decimal digits. -/
def allDigits (cs : List Char) : Bool :=
  cs.all (fun c => c.isDigit)

/-- Strip leading and trailing whitespace from a character list. -/
def trimChars (cs : List Char) : List Char :=
  ((cs.dropWhile fun c => c.isWhitespace).reverse.dropWhile fun c => c.isWhitespace).reverse

/-- Model of JavaScript string-to-number coercion (ToNumber on strings),
restricted to optional sign, decimal digits and one decimal point; a blank
string coerces to 0 and anything else non-numeric coerces to NaN (`none`). -/
def jsStringToNumber (s : String) : Option ℚ :=
  let t := trimChars s.data
  if t.isEmpty then some 0 else
  let signAndRest : ℚ × List Char :=
    match t with
    | '-' :: cs => (-1, cs)
    | '+' :: cs => (1, cs)
    | cs => (1, cs)
  match signAndRest.2.splitOn '.' with
  | [ds] =>
    if !ds.isEmpty && allDigits ds then some (signAndRest.1 * digitsToNat ds) else none
  | [ds, fs] =>
    if (!ds.isEmpty || !fs.isEmpty) && allDigits ds && allDigits fs then
      some (signAndRest.1 * ((digitsToNat ds : ℚ) + (digitsToNat fs : ℚ) / 10 ^ fs.length))
    else none
  | _ => none

/-- Model of the JavaScript Number(...) coercion on `JSVal`; `none` is NaN. -/
def JSVal.toNumber : JSVal → Option ℚ
  | .num q => some q
  | .nan => none
  | .str s => jsStringToNumber s
  | .null => some 0
  | .undef => none

/-- Model of the nullish-coalescing expression `v ?? 1` from
`Number(quiz?.maxAttempts ?? 1)` in `StudentView.jsx`. -/
def nullishOneDefault (v : JSVal) : JSVal :=
  match v with
  | .null => .num 1
  | .undef => .num 1
  | v => v

/-- Embedding of `getMaxAttempts` (StudentView.jsx):
`const raw = Number(quiz?.maxAttempts ?? 1);`
`return Number.isFinite(raw) && raw > 0 ? Math.floor(raw) : 1;`
The rational model has no infinities, so `Number.isFinite` is exactly
non-NaN here. -/
def getMaxAttempts (maxAttemptsField : JSVal) : Int :=
  match (nullishOneDefault maxAttemptsField).toNumber with
  | none => 1
  | some raw => if 0 < raw then ⌊raw⌋ else 1

/-- Result record of `getAttemptInfo`. -/
structure AttemptInfo where
  maxAttempts : Int
  usedAttempts : Int
  remainingAttempts : Int
deriving DecidableEq, Repr

/-- Embedding of `getAttemptInfo` (StudentView.jsx). The summary access
`submissionSummary?.[quiz.id]?.count || 0` is passed as `summaryCount`
(with `none` for a missing entry; a stored count of 0 is falsy and also
yields 0). -/
def getAttemptInfo (maxAttemptsField : JSVal) (summaryCount : Option Nat) : AttemptInfo :=
  let maxAttempts := getMaxAttempts maxAttemptsField
  let usedAttempts : Int := (summaryCount.getD 0 : Nat)
  { maxAttempts := maxAttempts
    usedAttempts := usedAttempts
    remainingAttempts := max 0 (maxAttempts - usedAttempts) }

/-- Lookup in a string-keyed association list (model of JS object property
read `obj[k]`, with `none` for an absent property). -/
def alookup {α : Type} : List (String × α) → String → Option α
  | [], _ => none
  | (k, v) :: rest, key => if k = key then some v else alookup rest key

/-- Functional update of a string-keyed association list (model of JS object
property write `obj[k] = v`): replaces the first binding of the key, or
appends a new binding. -/
def aset {α : Type} : List (String × α) → String → α → List (String × α)
  | [], key, v => [(key, v)]
  | (k, w) :: rest, key, v =>
    if k = key then (k, v) :: rest else (k, w) :: aset rest key v

/-- Per-question evaluation record `{isCorrect, feedback}`. -/
structure Evaluation where
  isCorrect : Bool
  feedback : String
deriving DecidableEq, Repr

/-- A submission document as read back from the `submissions` collection.
Optional fields model properties that may be absent on legacy documents;
`attemptedAt` is modelled by its epoch-millisecond value. -/
structure SubmissionDoc where
  quizId : String
  attemptNumber : Option Int
  answers : Option (List (String × String))
  evaluations : Option (List (String × Evaluation))
  attemptedAt : Option Int
deriving DecidableEq, Repr

/-- Model of `Number(data.attemptNumber || 0)`: an absent or zero (falsy)
attempt number coerces to 0. -/
def numAttempt (doc : SubmissionDoc) : Int :=
  doc.attemptNumber.getD 0

/-- Per-quiz summary record built by the `useStudentSubmissions` fold. -/
structure QSummary where
  count : Nat
  latestAttemptNumber : Int
  latestAnswers : List (String × String)
  latestEvaluations : List (String × Evaluation)
deriving DecidableEq, Repr

/-- Fresh summary entry, as initialised inside the `useStudentSubmissions`
snapshot callback. -/
def emptySummary : QSummary :=
  { count := 0, latestAttemptNumber := 0, latestAnswers := [], latestEvaluations := [] }

/-- Per-record update of one quiz's summary entry — the body of the
`useStudentSubmissions` loop after the `quizId` guard: increment `count`,
and on `attemptNumber >= latestAttemptNumber` (non-strict) replace the
latest snapshot. -/
def updateSummary (s : QSummary) (doc : SubmissionDoc) : QSummary :=
  let n := numAttempt doc
  let s := { s with count := s.count + 1 }
  if s.latestAttemptNumber ≤ n then
    { s with
      latestAttemptNumber := n
      latestAnswers := doc.answers.getD []
      latestEvaluations := doc.evaluations.getD [] }
  else s

/-- One iteration of the `useStudentSubmissions` snapshot loop over the
accumulated `nextSummary` object: records with a falsy `quizId` are skipped. -/
def summarizeStep (acc : List (String × QSummary)) (doc : SubmissionDoc) :
    List (String × QSummary) :=
  if doc.quizId = "" then acc
  else
    let cur := (alookup acc doc.quizId).getD emptySummary
    aset acc doc.quizId (updateSummary cur doc)

/-- Embedding of the `useStudentSubmissions` snapshot callback
(firebaseService.js): fold the submission documents of one student into the
per-quiz summary object. -/
def summarizeByQuiz (docs : List SubmissionDoc) : List (String × QSummary) :=
  docs.foldl summarizeStep []

/-- Per-quiz projection of the summary fold: the same update sequence applied
only to the documents of one quiz. -/
def summarizeQuizDocs (init : Option QSummary) (docs : List SubmissionDoc) :
    Option QSummary :=
  docs.foldl (fun o doc => some (updateSummary (o.getD emptySummary) doc)) init

/-- The documents of quiz `q`, in iteration order. -/
def docsOfQuiz (docs : List SubmissionDoc) (q : String) : List SubmissionDoc :=
  docs.filter (fun doc => doc.quizId = q)

/-! ### Attempt history sort (attemptsByQuiz in StudentView.jsx, useStudentAttempts) -/

/-- Model of `new Date(doc.attemptedAt || 0).getTime()`: an absent (or falsy)
timestamp reads as epoch 0. -/
def attemptTime (doc : SubmissionDoc) : Int :=
  doc.attemptedAt.getD 0

/-- Sort order realised by the comparator
`(a, b) => Number(b.attemptNumber || 0) - Number(a.attemptNumber || 0) || (dateB - dateA)`:
`a` may precede `b` iff `a` has the larger attempt number, or the numbers tie
and `a` has the later (or equal) timestamp — descending on
`(attemptNumber, attemptedAt)` with `attemptNumber` primary. -/
def attemptOrder (a b : SubmissionDoc) : Prop :=
  numAttempt b < numAttempt a ∨
    (numAttempt a = numAttempt b ∧ attemptTime b ≤ attemptTime a)

instance : DecidableRel attemptOrder := by
  intro a b
  unfold attemptOrder
  infer_instance

instance : IsTotal SubmissionDoc attemptOrder :=
  ⟨by intro a b; unfold attemptOrder; omega⟩

instance : IsTrans SubmissionDoc attemptOrder :=
  ⟨by intro a b c; unfold attemptOrder; omega⟩

/-- Embedding of `attemptsByQuiz` (StudentView.jsx): group the submission
history by quiz id (skipping records with a falsy `quizId`), then sort each
group descending by `(attemptNumber, attemptedAt)`. The JS `Array.sort` is
modelled by a stable sort realising the same comparator. Looking up a quiz id
that never appears (or the falsy id) yields the empty sequence. -/
def attemptsByQuiz (docs : List SubmissionDoc) (q : String) : List SubmissionDoc :=
  if q = "" then [] else List.insertionSort attemptOrder (docsOfQuiz docs q)

/-! ### Quiz data model and the submission flow (StudentView.jsx) -/

/-- A quiz question as authored by the teacher. -/
structure Question where
  id : String
  text : String
  showFeedback : Bool
deriving DecidableEq, Repr

/-- The quiz fields consumed by the student submission flow. The raw
`maxAttempts` field is kept as a dynamic `JSVal`, matching the defensive
coercion in `getMaxAttempts`. -/
structure Quiz where
  id : String
  title : String
  classId : String
  maxAttempts : JSVal
  prefillFromLastAttempt : Bool
  isLocked : Bool
  allowShuffle : Bool
  questions : List Question
deriving DecidableEq, Repr

/-- The fixed teacher-review feedback string from `buildFallbackEvaluations`. -/
def fallbackFeedback : String :=
  "AI grading is unavailable. Your answer was saved and needs teacher review."

/-- The synthesized fallback evaluation value. -/
def fallbackEvaluation : Evaluation :=
  { isCorrect := false, feedback := fallbackFeedback }

/-- Embedding of `buildFallbackEvaluations` (StudentView.jsx): one
`{isCorrect: false, feedback: ...}` entry per question, keyed by question id;
questions with a falsy `id` are skipped. -/
def buildFallbackEvaluations (quiz : Quiz) : List (String × Evaluation) :=
  quiz.questions.foldl
    (fun fb q => if q.id = "" then fb else aset fb q.id fallbackEvaluation) []

/-- The submission document written by `addDoc(collection(db, 'submissions'), ...)`,
restricted to the fields the verified claims are about. -/
structure SubmissionRecord where
  quizId : String
  answers : List (String × String)
  evaluations : List (String × Evaluation)
  gradeStatus : String
  attemptNumber : Int
  maxAttemptsAtSubmission : Int
  attemptedAt : Int
deriving DecidableEq, Repr

/-- Embedding of `submitQuiz` (StudentView.jsx). `gradingEvaluations` models
`gradingData?.evaluations`: `none` when `gradeSubmission` returned `null`
(any grading failure) or the payload had no `evaluations` property; a present
evaluations object is truthy in JS even when empty, so `isSome` decides the
`'graded'` status exactly as `gradingData?.evaluations ? 'graded' : ...` does.
`summaryCount` is `submissionSummary?.[quiz.id]?.count`. A returned `some`
record models the `addDoc` write of the submission; `none` models the early
return when no attempts remain (the partially-answered confirm dialog does not
change the written record and is not modelled). -/
def submitQuiz (quiz : Quiz) (summaryCount : Option Nat)
    (studentAnswers : List (String × String))
    (gradingEvaluations : Option (List (String × Evaluation)))
    (now : Int) : Option SubmissionRecord :=
  let info := getAttemptInfo quiz.maxAttempts summaryCount
  if info.remainingAttempts ≤ 0 then none
  else
    let evaluations := gradingEvaluations.getD (buildFallbackEvaluations quiz)
    let gradeStatus := if gradingEvaluations.isSome then "graded" else "needs_teacher_review"
    some
      { quizId := quiz.id
        answers := studentAnswers
        evaluations := evaluations
        gradeStatus := gradeStatus
        attemptNumber := info.usedAttempts + 1
        maxAttemptsAtSubmission := info.maxAttempts
        attemptedAt := now }

/-! ### Object identity model for the retake prefill (startQuiz, handleAnswerChange)

JavaScript answer-map objects live on a heap of cells addressed by `Nat`
references, so that "copy versus reference" is observable: `startQuiz` passes
`summary.latestAnswers` straight into `setStudentAnswers` (no copy), while
`handleAnswerChange` builds a fresh object with the spread
`{ ...prev, [questionId]: value }` and never writes through the old reference. -/

/-- A heap of answer-map objects; a reference is an index into `cells`. -/
structure Heap where
  cells : List (List (String × String))
deriving DecidableEq, Repr

/-- Dereference: reading an unallocated reference yields the empty map (such a
read never happens along the verified paths). -/
def Heap.get (h : Heap) (r : Nat) : List (String × String) :=
  (h.cells.get? r).getD []

/-- Allocate a fresh object (a JS object literal or spread result). -/
def Heap.alloc (h : Heap) (m : List (String × String)) : Heap × Nat :=
  (⟨h.cells ++ [m]⟩, h.cells.length)

/-- The student-answer component state: the heap plus the reference held in
the `studentAnswers` React state. -/
structure AnswerState where
  heap : Heap
  studentAnswersRef : Nat
deriving DecidableEq, Repr

/-- Embedding of the answer-seeding part of `startQuiz` (StudentView.jsx):
`const latestAnswers = submissionSummary?.[quiz.id]?.latestAnswers || {};`
`setStudentAnswers(quiz.prefillFromLastAttempt ? latestAnswers : {});`
`latestAnswersRef` is the reference stored in the summary (`none` when the
summary has no entry, in which case the `|| {}` allocates a fresh empty
object). Note the prefill branch installs the summary's reference itself. -/
def startQuizAnswers (h : Heap) (prefillFromLastAttempt : Bool)
    (latestAnswersRef : Option Nat) : AnswerState :=
  let latest : Heap × Nat :=
    match latestAnswersRef with
    | some r => (h, r)
    | none => h.alloc []
  if prefillFromLastAttempt then
    { heap := latest.1, studentAnswersRef := latest.2 }
  else
    let fresh := latest.1.alloc []
    { heap := fresh.1, studentAnswersRef := fresh.2 }

/-- Embedding of `handleAnswerChange` (StudentView.jsx): the functional update
`setStudentAnswers((prev) => ({ ...prev, [questionId]: value }))` allocates a
fresh object and repoints the state at it. -/
def handleAnswerChange (s : AnswerState) (questionId value : String) : AnswerState :=
  let prev := s.heap.get s.studentAnswersRef
  let fresh := s.heap.alloc (aset prev questionId value)
  { heap := fresh.1, studentAnswersRef := fresh.2 }

/-- A whole editing session: apply a sequence of answer changes. -/
def applyAnswerChanges (s : AnswerState) (changes : List (String × String)) : AnswerState :=
  changes.foldl (fun st c => handleAnswerChange st c.1 c.2) s

/-! ### Grading proxy (netlify/functions/gradeQuiz.js) -/

/-- Model of `text.slice(0, n)`: the first `n` characters. -/
def jsSlice (s : String) (n : Nat) : String :=
  String.mk (s.data.take n)

/-- Embedding of the `truncate` helper in gradeQuiz.js:
`text.length > max ? text.slice(0, max) + '...' : text`. The falsy guard
`String(value || "")` is applied by the callers' wrappers below. -/
def truncate (value : String) (maxLen : Nat) : String :=
  if maxLen < value.length then jsSlice value maxLen ++ "..." else value

/-- Model of `studentAnswers[q.id] || "No answer provided"`. -/
def promptAnswerText (answer : Option String) : String :=
  match answer with
  | some s => if s = "" then "No answer provided" else s
  | none => "No answer provided"

/-- One question block of the upstream prompt. -/
structure PromptQuestion where
  id : String
  questionText : String
  answerText : String
deriving DecidableEq, Repr

/-- Embedding of the prompt construction in gradeQuiz.js: the question list is
capped to its first 20 entries (`questions.slice(0, 20)`), and each question
text and student answer is capped to 1200 characters. -/
def buildPromptQuestions (questions : List Question)
    (studentAnswers : List (String × String)) : List PromptQuestion :=
  (questions.take 20).map fun q =>
    { id := q.id
      questionText := truncate q.text 1200
      answerText := truncate (promptAnswerText (alookup studentAnswers q.id)) 1200 }

/-- The title line of the upstream prompt: capped to 200 characters. -/
def promptTitle (quizTitle : String) : String :=
  truncate quizTitle 200

/-- Outcome of the upstream model-candidate loop: either some candidate
produced a parseable `{evaluations: ...}` payload, or the whole loop threw
(timeout, non-404 error, all candidates not found, non-JSON text, or a
payload without `evaluations`). -/
inductive UpstreamOutcome where
  | success (evaluations : List (String × Evaluation))
  | failure
deriving DecidableEq, Repr

/-- The request body after `JSON.parse`. -/
structure GradeRequest where
  quizTitle : String
  questions : List Question
  studentAnswers : List (String × String)
deriving DecidableEq, Repr

/-- Embedding of the gradeQuiz.js `handler` control flow, returning the HTTP
status code of the response. `parsedBody` is the result of
`JSON.parse(event.body)` with `none` for a malformed body: the parse error is
thrown inside the `try` block and lands in the catch-all, which answers 500.
The missing-API-key check precedes the method check. -/
def handler (hasApiKey : Bool) (httpMethod : String) (parsedBody : Option GradeRequest)
    (upstream : UpstreamOutcome) : Nat :=
  if !hasApiKey then 500
  else if httpMethod ≠ "POST" then 405
  else
    match parsedBody with
    | none => 500
    | some _ =>
      match upstream with
      | .success _ => 200
      | .failure => 500

/-- A 4xx (client error) status code. -/
def is4xx (statusCode : Nat) : Prop :=
  400 ≤ statusCode ∧ statusCode < 500

/-! ### Helper lemmas -/

theorem alookup_aset_self {α : Type} (m : List (String × α)) (k : String) (v : α) :
    alookup (aset m k v) k = some v := by
  induction m with
  | nil => simp [aset, alookup]
  | cons p rest ih =>
    obtain ⟨k', w⟩ := p
    by_cases h : k' = k
    · simp [aset, alookup, h]
    · simp [aset, alookup, h, ih]

theorem alookup_aset_ne {α : Type} (m : List (String × α)) (k k' : String) (v : α)
    (h : k ≠ k') : alookup (aset m k v) k' = alookup m k' := by
  induction m with
  | nil => simp [aset, alookup, h]
  | cons p rest ih =>
    obtain ⟨k₀, w⟩ := p
    by_cases h₀ : k₀ = k
    · subst h₀
      simp [aset, alookup, h]
    · simp [aset, alookup, h₀, ih]

theorem summarize_foldl_lookup (docs : List SubmissionDoc) (q : String) (hq : q ≠ "")
    (acc : List (String × QSummary)) :
    alookup (docs.foldl summarizeStep acc) q =
      summarizeQuizDocs (alookup acc q) (docsOfQuiz docs q) := by
  induction docs generalizing acc with
  | nil => simp [summarizeQuizDocs, docsOfQuiz]
  | cons doc rest ih =>
    by_cases hdq : doc.quizId = q
    · have hskip : ¬ doc.quizId = "" := by rw [hdq]; exact hq
      have hfil : docsOfQuiz (doc :: rest) q = doc :: docsOfQuiz rest q := by
        simp [docsOfQuiz, List.filter_cons, hdq]
      simp only [List.foldl_cons, summarizeStep, if_neg hskip]
      rw [ih, hfil, hdq, alookup_aset_self]
      simp [summarizeQuizDocs]
    · have hfil : docsOfQuiz (doc :: rest) q = docsOfQuiz rest q := by
        simp [docsOfQuiz, List.filter_cons, hdq]
      by_cases hskip : doc.quizId = ""
      · simp only [List.foldl_cons, summarizeStep, if_pos hskip]
        rw [ih, hfil]
      · simp only [List.foldl_cons, summarizeStep, if_neg hskip]
        rw [ih, hfil, alookup_aset_ne _ _ _ _ hdq]

theorem summarizeByQuiz_lookup (docs : List SubmissionDoc) (q : String) (hq : q ≠ "") :
    alookup (summarizeByQuiz docs) q = summarizeQuizDocs none (docsOfQuiz docs q) := by
  have h := summarize_foldl_lookup docs q hq []
  simpa [summarizeByQuiz, alookup] using h

theorem summarizeByQuiz_falsy (docs : List SubmissionDoc) :
    alookup (summarizeByQuiz docs) "" = none := by
  have aux : ∀ acc : List (String × QSummary), alookup acc "" = none →
      alookup (docs.foldl summarizeStep acc) "" = none := by
    induction docs with
    | nil => intro acc h; simpa using h
    | cons doc rest ih =>
      intro acc h
      by_cases hskip : doc.quizId = ""
      · simp only [List.foldl_cons, summarizeStep, if_pos hskip]
        exact ih acc h
      · simp only [List.foldl_cons, summarizeStep, if_neg hskip]
        apply ih
        rw [alookup_aset_ne _ _ _ _ hskip, h]
  exact aux [] rfl

theorem summarizeQuizDocs_count (docs : List SubmissionDoc) (s : QSummary) :
    ∃ t : QSummary, summarizeQuizDocs (some s) docs = some t ∧
      t.count = s.count + docs.length := by
  induction docs generalizing s with
  | nil => exact ⟨s, rfl, by simp⟩
  | cons doc rest ih =>
    obtain ⟨t, ht, hc⟩ := ih (updateSummary s doc)
    refine ⟨t, by simpa [summarizeQuizDocs] using ht, ?_⟩
    have hstep : (updateSummary s doc).count = s.count + 1 := by
      unfold updateSummary
      dsimp only
      split <;> rfl
    rw [hc, hstep]
    simp
    omega

theorem buildFallback_fold_lookup (qs : List Question) (acc : List (String × Evaluation))
    (k : String) (hk : k ≠ "")
    (h : alookup acc k = some fallbackEvaluation ∨ ∃ q ∈ qs, q.id = k) :
    alookup
      (qs.foldl (fun fb q => if q.id = "" then fb else aset fb q.id fallbackEvaluation) acc) k =
      some fallbackEvaluation := by
  induction qs generalizing acc with
  | nil =>
    rcases h with h | ⟨q, hq, _⟩
    · simpa using h
    · exact absurd hq (List.not_mem_nil q)
  | cons q rest ih =>
    simp only [List.foldl_cons]
    apply ih
    by_cases hid : q.id = ""
    · rw [if_pos hid]
      rcases h with h | ⟨q', hq', hk'⟩
      · exact Or.inl h
      · rcases List.mem_cons.mp hq' with rfl | hmem
        · exact absurd hid (hk' ▸ hk)
        · exact Or.inr ⟨q', hmem, hk'⟩
    · rw [if_neg hid]
      rcases h with h | ⟨q', hq', hk'⟩
      · by_cases hqk : q.id = k
        · exact Or.inl (hqk ▸ alookup_aset_self acc q.id fallbackEvaluation)
        · rw [alookup_aset_ne _ _ _ _ hqk]
          exact Or.inl h
      · rcases List.mem_cons.mp hq' with rfl | hmem
        · exact Or.inl (hk' ▸ alookup_aset_self acc q'.id fallbackEvaluation)
        · by_cases hqk : q.id = k
          · exact Or.inl (hqk ▸ alookup_aset_self acc q.id fallbackEvaluation)
          · rw [alookup_aset_ne _ _ _ _ hqk]
            exact Or.inr ⟨q', hmem, hk'⟩

theorem buildFallbackEvaluations_lookup (quiz : Quiz) (q : Question)
    (hmem : q ∈ quiz.questions) (hid : q.id ≠ "") :
    alookup (buildFallbackEvaluations quiz) q.id = some fallbackEvaluation :=
  buildFallback_fold_lookup quiz.questions [] q.id hid (Or.inr ⟨q, hmem, rfl⟩)

theorem Heap.get_alloc_lt (h : Heap) (m : List (String × String)) (r : Nat)
    (hr : r < h.cells.length) : (h.alloc m).1.get r = h.get r := by
  simp only [Heap.alloc, Heap.get, List.get?_eq_getElem?]
  rw [List.getElem?_append, if_pos hr]

theorem Heap.get_alloc_self (h : Heap) (m : List (String × String)) :
    (h.alloc m).1.get (h.alloc m).2 = m := by
  simp [Heap.alloc, Heap.get, List.get?_eq_getElem?]

theorem handleAnswerChange_frame (s : AnswerState) (questionId value : String) (r : Nat)
    (hr : r < s.heap.cells.length) :
    (handleAnswerChange s questionId value).heap.get r = s.heap.get r :=
  Heap.get_alloc_lt s.heap _ r hr

theorem handleAnswerChange_heap_grows (s : AnswerState) (questionId value : String) :
    s.heap.cells.length < (handleAnswerChange s questionId value).heap.cells.length := by
  simp [handleAnswerChange, Heap.alloc]

theorem handleAnswerChange_ref_valid (s : AnswerState) (questionId value : String) :
    (handleAnswerChange s questionId value).studentAnswersRef <
      (handleAnswerChange s questionId value).heap.cells.length := by
  simp [handleAnswerChange, Heap.alloc]

theorem handleAnswerChange_content (s : AnswerState) (questionId value : String) :
    (handleAnswerChange s questionId value).heap.get
        (handleAnswerChange s questionId value).studentAnswersRef =
      aset (s.heap.get s.studentAnswersRef) questionId value :=
  Heap.get_alloc_self s.heap _

theorem updateSummary_count (s : QSummary) (doc : SubmissionDoc) :
    (updateSummary s doc).count = s.count + 1 := by
  unfold updateSummary
  dsimp only
  split <;> rfl

theorem updateSummary_latest_zero (s : QSummary) (doc : SubmissionDoc)
    (hs : s.latestAttemptNumber = 0) (hd : numAttempt doc ≤ 0) :
    (updateSummary s doc).latestAttemptNumber = 0 := by
  unfold updateSummary
  dsimp only
  split
  next h =>
    show numAttempt doc = 0
    rw [hs] at h
    omega
  next h => exact hs

theorem summarizeQuizDocs_latest_zero (fl : List SubmissionDoc) (s : QSummary)
    (hs : s.latestAttemptNumber = 0) (hall : ∀ d ∈ fl, numAttempt d ≤ 0) :
    ∃ t, summarizeQuizDocs (some s) fl = some t ∧ t.latestAttemptNumber = 0 ∧
      t.count = s.count + fl.length := by
  induction fl generalizing s with
  | nil => exact ⟨s, rfl, hs, by simp⟩
  | cons d ds ih =>
    have hd := hall d (List.mem_cons_self d ds)
    have hlam := updateSummary_latest_zero s d hs hd
    obtain ⟨t, ht, h0, hc⟩ := ih (updateSummary s d) hlam
      (fun x hx => hall x (List.mem_cons_of_mem d hx))
    refine ⟨t, by simpa [summarizeQuizDocs] using ht, h0, ?_⟩
    rw [hc, updateSummary_count]
    simp
    omega

theorem applyAnswerChanges_length (changes : List (String × String)) (s : AnswerState) :
    s.heap.cells.length ≤ (applyAnswerChanges s changes).heap.cells.length := by
  induction changes generalizing s with
  | nil => simp [applyAnswerChanges]
  | cons c cs ih =>
    have hgrow := handleAnswerChange_heap_grows s c.1 c.2
    have := ih (handleAnswerChange s c.1 c.2)
    simp only [applyAnswerChanges, List.foldl_cons] at this ⊢
    omega

theorem applyAnswerChanges_frame (changes : List (String × String)) (s : AnswerState)
    (r : Nat) (hr : r < s.heap.cells.length) :
    (applyAnswerChanges s changes).heap.get r = s.heap.get r := by
  induction changes generalizing s with
  | nil => simp [applyAnswerChanges]
  | cons c cs ih =>
    have hgrow := handleAnswerChange_heap_grows s c.1 c.2
    have hstep := handleAnswerChange_frame s c.1 c.2 r hr
    have hrest := ih (handleAnswerChange s c.1 c.2) (by omega)
    simp only [applyAnswerChanges, List.foldl_cons] at hrest ⊢
    rw [hrest, hstep]

theorem applyAnswerChanges_content (changes : List (String × String)) (s : AnswerState)
    (hr : s.studentAnswersRef < s.heap.cells.length) :
    (applyAnswerChanges s changes).heap.get (applyAnswerChanges s changes).studentAnswersRef =
      changes.foldl (fun m c => aset m c.1 c.2) (s.heap.get s.studentAnswersRef) := by
  induction changes generalizing s with
  | nil => simp [applyAnswerChanges]
  | cons c cs ih =>
    have hstep := handleAnswerChange_content s c.1 c.2
    have hvalid := handleAnswerChange_ref_valid s c.1 c.2
    have hrest := ih (handleAnswerChange s c.1 c.2) hvalid
    simp only [applyAnswerChanges, List.foldl_cons] at hrest ⊢
    rw [hrest, hstep]

/-! ### Claim theorems -/

/-- C3: for every submission sequence, the per-quiz summary counts exactly the
input records whose quizId equals each present quiz id; records with a falsy
quizId are skipped entirely (the falsy key never appears), and an empty input
yields an empty map. -/
theorem summarizeByQuiz_count_correct (docs : List SubmissionDoc) (q : String)
    (hq : q ≠ "") :
    (∀ s, alookup (summarizeByQuiz docs) q = some s →
        s.count = (docsOfQuiz docs q).length) ∧
      (alookup (summarizeByQuiz docs) q = none ↔ docsOfQuiz docs q = []) ∧
      alookup (summarizeByQuiz docs) "" = none ∧
      summarizeByQuiz ([] : List SubmissionDoc) = [] := by
  refine ⟨?_, ?_, summarizeByQuiz_falsy docs, rfl⟩
  · intro s hs
    rw [summarizeByQuiz_lookup docs q hq] at hs
    cases hfil : docsOfQuiz docs q with
    | nil =>
      rw [hfil] at hs
      simp [summarizeQuizDocs] at hs
    | cons d ds =>
      rw [hfil] at hs
      obtain ⟨t, ht, hc⟩ := summarizeQuizDocs_count ds (updateSummary emptySummary d)
      have : summarizeQuizDocs none (d :: ds) = some t := by
        simpa [summarizeQuizDocs] using ht
      rw [this] at hs
      cases hs
      rw [hc, updateSummary_count]
      simp [emptySummary]
      omega
  · rw [summarizeByQuiz_lookup docs q hq]
    cases hfil : docsOfQuiz docs q with
    | nil => simp [summarizeQuizDocs]
    | cons d ds =>
      obtain ⟨t, ht, _⟩ := summarizeQuizDocs_count ds (updateSummary emptySummary d)
      have : summarizeQuizDocs none (d :: ds) = some t := by
        simpa [summarizeQuizDocs] using ht
      simp [this]

/-- C3 witness at a concrete input: two records for quiz1, one for quiz2, one
falsy record. -/
theorem summarizeByQuiz_count_correct_witness :
    (∀ s, alookup (summarizeByQuiz
          [⟨"quiz1", some 1, none, none, none⟩,
           ⟨"quiz2", some 1, none, none, none⟩,
           ⟨"", some 1, none, none, none⟩,
           ⟨"quiz1", some 2, none, none, none⟩]) "quiz1" = some s →
        s.count = (docsOfQuiz
          [⟨"quiz1", some 1, none, none, none⟩,
           ⟨"quiz2", some 1, none, none, none⟩,
           ⟨"", some 1, none, none, none⟩,
           ⟨"quiz1", some 2, none, none, none⟩] "quiz1").length) ∧
      (alookup (summarizeByQuiz
          [⟨"quiz1", some 1, none, none, none⟩,
           ⟨"quiz2", some 1, none, none, none⟩,
           ⟨"", some 1, none, none, none⟩,
           ⟨"quiz1", some 2, none, none, none⟩]) "quiz1" = none ↔ docsOfQuiz
          [⟨"quiz1", some 1, none, none, none⟩,
           ⟨"quiz2", some 1, none, none, none⟩,
           ⟨"", some 1, none, none, none⟩,
           ⟨"quiz1", some 2, none, none, none⟩] "quiz1" = []) ∧
      alookup (summarizeByQuiz
          [⟨"quiz1", some 1, none, none, none⟩,
           ⟨"quiz2", some 1, none, none, none⟩,
           ⟨"", some 1, none, none, none⟩,
           ⟨"quiz1", some 2, none, none, none⟩]) "" = none ∧
      summarizeByQuiz ([] : List SubmissionDoc) = [] :=
  summarizeByQuiz_count_correct
    [⟨"quiz1", some 1, none, none, none⟩,
     ⟨"quiz2", some 1, none, none, none⟩,
     ⟨"", some 1, none, none, none⟩,
     ⟨"quiz1", some 2, none, none, none⟩] "quiz1" (by decide)

/-- C5: remainingAttempts is max(0, maxAttempts - usedAttempts), hence never
negative, and usedAttempts exceeding maxAttempts yields exactly 0. -/
theorem remainingAttempts_never_negative (v : JSVal) (c : Option Nat) :
    (getAttemptInfo v c).remainingAttempts =
        max 0 ((getAttemptInfo v c).maxAttempts - (getAttemptInfo v c).usedAttempts) ∧
      0 ≤ (getAttemptInfo v c).remainingAttempts ∧
      ((getAttemptInfo v c).maxAttempts < (getAttemptInfo v c).usedAttempts →
        (getAttemptInfo v c).remainingAttempts = 0) := by
  unfold getAttemptInfo
  dsimp only
  refine ⟨rfl, ?_, ?_⟩ <;> omega

/-- C5 witness: a quiz with maxAttempts 2 and 5 used attempts has 0 remaining. -/
theorem remainingAttempts_never_negative_witness :
    (getAttemptInfo (JSVal.num 2) (some 5)).remainingAttempts = 0 :=
  (remainingAttempts_never_negative (JSVal.num 2) (some 5)).2.2 (by decide)

/-- C4 counterexample: the claim says the maxAttempts coercion always yields a
positive integer, but the input 0.5 is finite and positive, so the code takes
Math.floor(0.5) and the effective maxAttempts is 0 — not positive. -/
theorem getMaxAttempts_half_is_zero :
    getMaxAttempts (JSVal.num (1/2)) = 0 ∧ ¬ 0 < getMaxAttempts (JSVal.num (1/2)) := by
  have h : getMaxAttempts (JSVal.num (1/2)) = 0 := by
    simp only [getMaxAttempts, nullishOneDefault, JSVal.toNumber]
    norm_num
  exact ⟨h, by omega⟩

/-- C4 (amended): the maxAttempts coercion never throws and yields a
nonnegative integer; it is zero exactly when the coerced numeric value lies
strictly between 0 and 1 (such values take the floor branch), and on the
claim's listed inputs it behaves as stated: 0, -3, the string abc, null and
undefined all yield 1, and 3.7 yields 3. -/
theorem getMaxAttempts_coercion (v : JSVal) :
    getMaxAttempts (JSVal.num 0) = 1 ∧
      getMaxAttempts (JSVal.num (-3)) = 1 ∧
      getMaxAttempts (JSVal.str "abc") = 1 ∧
      getMaxAttempts JSVal.null = 1 ∧
      getMaxAttempts JSVal.undef = 1 ∧
      getMaxAttempts (JSVal.num (37/10)) = 3 ∧
      0 ≤ getMaxAttempts v ∧
      (getMaxAttempts v = 0 ↔
        ∃ q, (nullishOneDefault v).toNumber = some q ∧ 0 < q ∧ q < 1) := by
  refine ⟨by decide, by decide, by decide, by decide, by decide, ?_, ?_, ?_⟩
  · simp only [getMaxAttempts, nullishOneDefault, JSVal.toNumber]
    norm_num
  · unfold getMaxAttempts
    cases h : (nullishOneDefault v).toNumber with
    | none => simp
    | some raw =>
      dsimp only
      split
      next hpos => exact Int.floor_nonneg.mpr (le_of_lt hpos)
      next hpos => omega
  · unfold getMaxAttempts
    cases h : (nullishOneDefault v).toNumber with
    | none => simp
    | some raw =>
      dsimp only
      constructor
      · intro hz
        split at hz
        next hpos =>
          have hmem := Int.floor_eq_zero_iff.mp hz
          exact ⟨raw, rfl, hpos, hmem.2⟩
        next hpos => omega
      · rintro ⟨q, hq, h0, h1⟩
        have hqq : q = raw := (Option.some_inj.mp hq).symm
        subst hqq
        rw [if_pos h0]
        exact Int.floor_eq_zero_iff.mpr ⟨le_of_lt h0, h1⟩

/-- C4 witness: the amended coercion theorem applied at the concrete input
one quarter, projecting the nonnegativity clause. -/
theorem getMaxAttempts_coercion_witness :
    0 ≤ getMaxAttempts (JSVal.num (1/4)) :=
  (getMaxAttempts_coercion (JSVal.num (1/4))).2.2.2.2.2.2.1

/-- C2: given an input sequence of two records for the same quiz with equal
(nonnegative, per the data model) attempt numbers, the later record wins the
non-strict greater-or-equal comparison regardless of either attemptedAt value,
and latestAnswers, latestEvaluations and latestAttemptNumber all come from
that same later record. -/
theorem summarize_tiebreak_later_wins (r1 r2 : SubmissionDoc) (q : String) (n : Int)
    (hq : q ≠ "") (h1 : r1.quizId = q) (h2 : r2.quizId = q)
    (hn1 : numAttempt r1 = n) (hn2 : numAttempt r2 = n) (hn : 0 ≤ n) :
    alookup (summarizeByQuiz [r1, r2]) q =
      some { count := 2
             latestAttemptNumber := n
             latestAnswers := r2.answers.getD []
             latestEvaluations := r2.evaluations.getD [] } := by
  rw [summarizeByQuiz_lookup _ _ hq]
  have hfil : docsOfQuiz [r1, r2] q = [r1, r2] := by
    simp [docsOfQuiz, List.filter, h1, h2]
  rw [hfil]
  simp only [summarizeQuizDocs, List.foldl_cons, List.foldl_nil, Option.getD_some,
    Option.getD_none]
  unfold updateSummary
  simp only [emptySummary, hn1, hn2]
  rw [if_pos hn]
  simp

/-- C2 witness: two records with equal attempt number 3 where the second has
the earlier timestamp; the second record still supplies the latest snapshot. -/
theorem summarize_tiebreak_later_wins_witness :
    alookup (summarizeByQuiz
        [⟨"quiz1", some 3, some [("q1", "first")], none, some 1000⟩,
         ⟨"quiz1", some 3, some [("q1", "second")], none, some 5⟩]) "quiz1" =
      some { count := 2
             latestAttemptNumber := 3
             latestAnswers := [("q1", "second")]
             latestEvaluations := [] } :=
  summarize_tiebreak_later_wins
    ⟨"quiz1", some 3, some [("q1", "first")], none, some 1000⟩
    ⟨"quiz1", some 3, some [("q1", "second")], none, some 5⟩
    "quiz1" 3 (by decide) rfl rfl rfl rfl (by decide)

/-- C10: a record whose attemptNumber is absent or zero coerces to attempt 0;
it still increments the quiz's count, and — because the running maximum starts
at 0 and the comparison is non-strict — it supplies the latest snapshot when
it is the last record of its quiz and no record of that quiz has a positive
coerced attempt number. -/
theorem summarize_falsy_attempt_not_dropped (earlier : List SubmissionDoc)
    (r : SubmissionDoc) (q : String) (hq : q ≠ "") (hrq : r.quizId = q)
    (hfalsy : r.attemptNumber = none ∨ r.attemptNumber = some 0)
    (hall : ∀ d ∈ earlier, d.quizId = q → numAttempt d ≤ 0) :
    ∃ s, alookup (summarizeByQuiz (earlier ++ [r])) q = some s ∧
      s.count = (docsOfQuiz (earlier ++ [r]) q).length ∧
      s.latestAttemptNumber = 0 ∧
      s.latestAnswers = r.answers.getD [] ∧
      s.latestEvaluations = r.evaluations.getD [] := by
  have hr0 : numAttempt r = 0 := by
    rcases hfalsy with h | h <;> simp [numAttempt, h]
  rw [summarizeByQuiz_lookup _ _ hq]
  have hfil : docsOfQuiz (earlier ++ [r]) q = docsOfQuiz earlier q ++ [r] := by
    simp [docsOfQuiz, List.filter_append, List.filter, hrq]
  rw [hfil]
  have happ : summarizeQuizDocs none (docsOfQuiz earlier q ++ [r]) =
      summarizeQuizDocs (summarizeQuizDocs none (docsOfQuiz earlier q)) [r] := by
    simp [summarizeQuizDocs, List.foldl_append]
  rw [happ]
  cases hfl : docsOfQuiz earlier q with
  | nil =>
    refine ⟨updateSummary emptySummary r, ?_, ?_, ?_, ?_, ?_⟩
    · simp [summarizeQuizDocs]
    · rw [updateSummary_count]
      simp [emptySummary, hfl]
    all_goals
      unfold updateSummary
      simp [emptySummary, hr0]
  | cons d ds =>
    have hmem : ∀ x ∈ d :: ds, numAttempt x ≤ 0 := by
      intro x hx
      rw [← hfl] at hx
      have := List.mem_filter.mp hx
      exact hall x this.1 (by simpa using this.2)
    have hd0 : numAttempt d ≤ 0 := hmem d (List.mem_cons_self d ds)
    have hfirst : (updateSummary emptySummary d).latestAttemptNumber = 0 :=
      updateSummary_latest_zero emptySummary d rfl hd0
    obtain ⟨t, ht, h0, hc⟩ := summarizeQuizDocs_latest_zero ds (updateSummary emptySummary d)
      hfirst (fun x hx => hmem x (List.mem_cons_of_mem d hx))
    have hinner : summarizeQuizDocs none (d :: ds) = some t := by
      simpa [summarizeQuizDocs] using ht
    rw [hinner]
    refine ⟨updateSummary t r, by simp [summarizeQuizDocs], ?_, ?_, ?_, ?_⟩
    · rw [updateSummary_count, hc, updateSummary_count]
      simp [emptySummary]
      omega
    all_goals
      unfold updateSummary
      rw [hr0, h0]
      simp

/-- C10 witness: one legacy record without an attemptNumber after a record
with attempt 0; the legacy record is counted and supplies the latest answers. -/
theorem summarize_falsy_attempt_not_dropped_witness :
    ∃ s, alookup (summarizeByQuiz
        ([⟨"quiz1", some 0, some [("q1", "old")], none, some 7⟩] ++
          [⟨"quiz1", none, some [("q1", "legacy")], none, none⟩])) "quiz1" = some s ∧
      s.count = (docsOfQuiz
        ([⟨"quiz1", some 0, some [("q1", "old")], none, some 7⟩] ++
          [⟨"quiz1", none, some [("q1", "legacy")], none, none⟩]) "quiz1").length ∧
      s.latestAttemptNumber = 0 ∧
      s.latestAnswers = (some [("q1", "legacy")] : Option (List (String × String))).getD [] ∧
      s.latestEvaluations = (none : Option (List (String × Evaluation))).getD [] :=
  summarize_falsy_attempt_not_dropped
    [⟨"quiz1", some 0, some [("q1", "old")], none, some 7⟩]
    ⟨"quiz1", none, some [("q1", "legacy")], none, none⟩
    "quiz1" (by decide) rfl (Or.inl rfl) (by decide)

/-- C1: when grading fails (no evaluations returned), the submission flow
synthesizes an isCorrect=false evaluation with the fixed teacher-review
feedback for every question of the quiz, stores
gradeStatus=needs_teacher_review, and still persists the record carrying the
student's answers; on grading success the service's evaluations are stored
with gradeStatus=graded. Questions are assumed to carry their (truthy) ids,
as the data model requires. -/
theorem submitQuiz_fallback_persists (quiz : Quiz) (summaryCount : Option Nat)
    (studentAnswers : List (String × String)) (now : Int)
    (hrem : 0 < (getAttemptInfo quiz.maxAttempts summaryCount).remainingAttempts)
    (hids : ∀ q ∈ quiz.questions, q.id ≠ "") :
    (∃ w, submitQuiz quiz summaryCount studentAnswers none now = some w ∧
        w.gradeStatus = "needs_teacher_review" ∧
        w.answers = studentAnswers ∧
        ∀ q ∈ quiz.questions, alookup w.evaluations q.id = some fallbackEvaluation) ∧
      ∀ evals, ∃ w, submitQuiz quiz summaryCount studentAnswers (some evals) now = some w ∧
        w.gradeStatus = "graded" ∧ w.evaluations = evals ∧ w.answers = studentAnswers := by
  have hcond : ¬ (getAttemptInfo quiz.maxAttempts summaryCount).remainingAttempts ≤ 0 := by
    omega
  constructor
  · refine ⟨{ quizId := quiz.id
              answers := studentAnswers
              evaluations := buildFallbackEvaluations quiz
              gradeStatus := "needs_teacher_review"
              attemptNumber := (getAttemptInfo quiz.maxAttempts summaryCount).usedAttempts + 1
              maxAttemptsAtSubmission :=
                (getAttemptInfo quiz.maxAttempts summaryCount).maxAttempts
              attemptedAt := now }, ?_, rfl, rfl, ?_⟩
    · simp [submitQuiz, hcond]
    · intro q hqmem
      exact buildFallbackEvaluations_lookup quiz q hqmem (hids q hqmem)
  · intro evals
    refine ⟨{ quizId := quiz.id
              answers := studentAnswers
              evaluations := evals
              gradeStatus := "graded"
              attemptNumber := (getAttemptInfo quiz.maxAttempts summaryCount).usedAttempts + 1
              maxAttemptsAtSubmission :=
                (getAttemptInfo quiz.maxAttempts summaryCount).maxAttempts
              attemptedAt := now }, ?_, rfl, rfl, rfl⟩
    simp [submitQuiz, hcond]

/-- C1 witness: a one-question quiz (maxAttempts field 0 coerces to 1) with no
prior attempts, submitted with a failed grading call and with a successful
one. -/
theorem submitQuiz_fallback_persists_witness :
    (∃ w, submitQuiz ⟨"quiz1", "T", "c1", JSVal.num 0, false, false, false,
          [⟨"q1", "what is 2+2", true⟩]⟩ none [("q1", "4")] none 0 = some w ∧
        w.gradeStatus = "needs_teacher_review" ∧
        w.answers = [("q1", "4")] ∧
        ∀ q ∈ (⟨"quiz1", "T", "c1", JSVal.num 0, false, false, false,
            [⟨"q1", "what is 2+2", true⟩]⟩ : Quiz).questions,
          alookup w.evaluations q.id = some fallbackEvaluation) ∧
      ∀ evals, ∃ w, submitQuiz ⟨"quiz1", "T", "c1", JSVal.num 0, false, false, false,
          [⟨"q1", "what is 2+2", true⟩]⟩ none [("q1", "4")] (some evals) 0 = some w ∧
        w.gradeStatus = "graded" ∧ w.evaluations = evals ∧ w.answers = [("q1", "4")] :=
  submitQuiz_fallback_persists
    ⟨"quiz1", "T", "c1", JSVal.num 0, false, false, false, [⟨"q1", "what is 2+2", true⟩]⟩
    none [("q1", "4")] 0 (by decide) (by decide)

/-- C6: every per-quiz attempt sequence is sorted descending by
(attemptNumber, attemptedAt) with attemptNumber primary, it is a permutation
of that quiz's records, and in the concrete scenario a record with attempt
number 2 and an earlier timestamp sorts before attempt number 1 with a later
timestamp. -/
theorem attemptsByQuiz_sorted_desc (docs : List SubmissionDoc) (q : String) (hq : q ≠ "") :
    List.Sorted attemptOrder (attemptsByQuiz docs q) ∧
      (attemptsByQuiz docs q).Perm (docsOfQuiz docs q) ∧
      attemptsByQuiz
          [⟨"quiz1", some 1, none, none, some 1000⟩,
           ⟨"quiz1", some 2, none, none, some 50⟩] "quiz1" =
        [⟨"quiz1", some 2, none, none, some 50⟩,
         ⟨"quiz1", some 1, none, none, some 1000⟩] := by
  unfold attemptsByQuiz
  rw [if_neg hq]
  refine ⟨List.sorted_insertionSort attemptOrder _, List.perm_insertionSort attemptOrder _, ?_⟩
  rw [if_neg (by decide : ¬ ("quiz1" : String) = "")]
  decide

/-- C6 witness: concrete two-record history for one quiz. -/
theorem attemptsByQuiz_sorted_desc_witness :
    List.Sorted attemptOrder (attemptsByQuiz
        [⟨"quiz1", some 1, none, none, some 1000⟩,
         ⟨"quiz1", some 2, none, none, some 50⟩] "quiz1") :=
  (attemptsByQuiz_sorted_desc
    [⟨"quiz1", some 1, none, none, some 1000⟩,
     ⟨"quiz1", some 2, none, none, some 50⟩] "quiz1" (by decide)).1

/-- C7 counterexample: with a stored latest-answers snapshot at reference 0,
starting a prefilled attempt installs that same reference as the live answer
map and allocates nothing — the initial answer map is the stored object
itself, not a copy. -/
theorem startQuiz_prefill_is_reference :
    (startQuizAnswers ⟨[[("q1", "prev")]]⟩ true (some 0)).studentAnswersRef = 0 ∧
      (startQuizAnswers ⟨[[("q1", "prev")]]⟩ true (some 0)).heap = ⟨[[("q1", "prev")]]⟩ :=
  ⟨rfl, rfl⟩

/-- C7 (amended): the prefilled answer map is seeded by reference, not by
copy, but every answer change builds a fresh spread copy instead of mutating
in place, so after any sequence of answer changes the stored latest-attempt
snapshot is unchanged while the live answer map carries all the edits applied
to the seeded answers; with prefillFromLastAttempt false the initial answer
map is empty. -/
theorem prefill_snapshot_never_mutated (h : Heap) (r : Nat)
    (changes : List (String × String)) (hr : r < h.cells.length) :
    ((applyAnswerChanges (startQuizAnswers h true (some r)) changes).heap.get r = h.get r ∧
        (applyAnswerChanges (startQuizAnswers h true (some r)) changes).heap.get
            (applyAnswerChanges (startQuizAnswers h true (some r)) changes).studentAnswersRef =
          changes.foldl (fun m c => aset m c.1 c.2) (h.get r)) ∧
      ∀ (h₂ : Heap) (latestRef : Option Nat),
        (startQuizAnswers h₂ false latestRef).heap.get
            (startQuizAnswers h₂ false latestRef).studentAnswersRef = [] := by
  have hstate : startQuizAnswers h true (some r) = ⟨h, r⟩ := rfl
  refine ⟨⟨?_, ?_⟩, ?_⟩
  · rw [hstate]
    exact applyAnswerChanges_frame changes ⟨h, r⟩ r hr
  · rw [hstate]
    exact applyAnswerChanges_content changes ⟨h, r⟩ hr
  · intro h₂ latestRef
    cases latestRef <;> simp [startQuizAnswers, Heap.get_alloc_self]

/-- C7 witness: a one-cell heap holding the stored snapshot, one answer edit
in a prefilled attempt; the snapshot cell still holds its original contents. -/
theorem prefill_snapshot_never_mutated_witness :
    ((applyAnswerChanges (startQuizAnswers ⟨[[("q1", "old")]]⟩ true (some 0))
          [("q1", "new")]).heap.get 0 = Heap.get ⟨[[("q1", "old")]]⟩ 0 ∧
        (applyAnswerChanges (startQuizAnswers ⟨[[("q1", "old")]]⟩ true (some 0))
            [("q1", "new")]).heap.get
            (applyAnswerChanges (startQuizAnswers ⟨[[("q1", "old")]]⟩ true (some 0))
              [("q1", "new")]).studentAnswersRef =
          [("q1", "new")].foldl (fun m c => aset m c.1 c.2)
            (Heap.get ⟨[[("q1", "old")]]⟩ 0)) ∧
      ∀ (h₂ : Heap) (latestRef : Option Nat),
        (startQuizAnswers h₂ false latestRef).heap.get
            (startQuizAnswers h₂ false latestRef).studentAnswersRef = [] :=
  prefill_snapshot_never_mutated ⟨[[("q1", "old")]]⟩ 0 [("q1", "new")] (by decide)

theorem truncate_length_le (v : String) (m : Nat) : (truncate v m).length ≤ m + 3 := by
  unfold truncate jsSlice
  split
  next h =>
    show (String.mk (v.data.take m) ++ "...").length ≤ m + 3
    rw [String.length_append]
    have : (String.mk (v.data.take m)).length = (v.data.take m).length := rfl
    rw [this, List.length_take]
    have h3 : ("..." : String).length = 3 := rfl
    omega
  next h => omega

/-- C8: before the upstream request is built, the quiz title is capped to 200
characters (plus the ellipsis marker when truncation occurs), every question
text and student answer to 1200 characters plus the marker, and the question
list to its first 20 entries; a 2000-character text becomes its first 1200
characters followed by the marker, 1203 characters in total. -/
theorem truncation_policy (title s : String) (questions : List Question)
    (answers : List (String × String)) :
    (promptTitle title).length ≤ 203 ∧
      (title.length ≤ 200 → promptTitle title = title) ∧
      (200 < title.length → promptTitle title = jsSlice title 200 ++ "...") ∧
      (buildPromptQuestions questions answers).length ≤ 20 ∧
      buildPromptQuestions questions answers =
        buildPromptQuestions (questions.take 20) answers ∧
      (∀ p ∈ buildPromptQuestions questions answers,
        p.questionText.length ≤ 1203 ∧ p.answerText.length ≤ 1203 ∧
          ∃ q ∈ questions.take 20, q.id = p.id ∧
            p.questionText = truncate q.text 1200) ∧
      (s.length = 2000 →
        truncate s 1200 = jsSlice s 1200 ++ "..." ∧ (truncate s 1200).length = 1203) := by
  refine ⟨?_, ?_, ?_, ?_, ?_, ?_, ?_⟩
  · have := truncate_length_le title 200
    simpa [promptTitle] using this
  · intro hle
    simp [promptTitle, truncate]
    omega
  · intro hgt
    simp [promptTitle, truncate, hgt]
  · simp only [buildPromptQuestions, List.length_map]
    have := List.length_take_le 20 questions
    omega
  · simp [buildPromptQuestions, List.take_take]
  · intro p hp
    simp only [buildPromptQuestions, List.mem_map] at hp
    obtain ⟨q, hqmem, hpq⟩ := hp
    refine ⟨?_, ?_, q, hqmem, ?_, ?_⟩
    · rw [← hpq]
      exact truncate_length_le q.text 1200
    · rw [← hpq]
      exact truncate_length_le _ 1200
    · rw [← hpq]
    · rw [← hpq]
  · intro hlen
    have hgt : 1200 < s.length := by omega
    constructor
    · simp [truncate, hgt]
    · rw [truncate, if_pos hgt]
      show (String.mk (s.data.take 1200) ++ "...").length = 1203
      rw [String.length_append]
      have h1 : (String.mk (s.data.take 1200)).length = (s.data.take 1200).length := rfl
      rw [h1, List.length_take]
      have h2 : s.data.length = 2000 := hlen
      have h3 : ("..." : String).length = 3 := rfl
      omega

/-- C8 witness: the listed-inputs clause applied at a short title, no
questions and no answers, projecting the short-title identity. -/
theorem truncation_policy_witness :
    promptTitle "Algebra Quiz" = "Algebra Quiz" :=
  (truncation_policy "Algebra Quiz" "" [] []).2.1 (by decide)

/-- C9 counterexample: a well-formed POST whose body fails JSON.parse lands in
the catch-all and is answered with 500 — a server error, not a 4xx. -/
theorem handler_malformed_json_not_4xx :
    handler true "POST" none UpstreamOutcome.failure = 500 ∧
      ¬ is4xx (handler true "POST" none UpstreamOutcome.failure) := by
  refine ⟨rfl, ?_⟩
  intro h
  have := h.2
  simp [handler] at this

/-- C9 (amended): with the API key configured, a request with any method
other than POST is rejected with 405 — a 4xx — but a malformed JSON body is
surfaced as a 500 server error, not a 4xx. -/
theorem handler_validation_statuses (m : String) (b : Option GradeRequest)
    (u v : UpstreamOutcome) (hm : m ≠ "POST") :
    (handler true m b u = 405 ∧ is4xx (handler true m b u)) ∧
      (handler true "POST" none v = 500 ∧ ¬ is4xx (handler true "POST" none v)) := by
  have h1 : handler true m b u = 405 := by
    simp [handler, hm]
  have h2 : handler true "POST" none v = 500 := rfl
  refine ⟨⟨h1, ?_⟩, h2, ?_⟩
  · rw [h1]
    exact ⟨by omega, by omega⟩
  · rw [h2]
    intro h
    have := h.2
    omega

/-- C9 witness: a GET request and a malformed-body POST, both with the key
configured. -/
theorem handler_validation_statuses_witness :
    (handler true "GET" none UpstreamOutcome.failure = 405 ∧
        is4xx (handler true "GET" none UpstreamOutcome.failure)) ∧
      (handler true "POST" none UpstreamOutcome.failure = 500 ∧
        ¬ is4xx (handler true "POST" none UpstreamOutcome.failure)) :=
  handler_validation_statuses "GET" none UpstreamOutcome.failure UpstreamOutcome.failure
    (by decide)

end MathQuiz
